import Mathlib

/-!
Shallow embedding of the core of `src/mexc_bot.py`: the rolling price-history
store, the lookback-baseline query, the pump/dump classifier, the cooldown
gate, and the new-listing tracker.  Timestamps are modelled as integers
(seconds), prices as rationals.
-/

namespace MexcBot

/-- A price sample `(timestamp, price)`, as appended by `update_price_history`. -/
abbrev Sample := ℤ × ℚ

/-- `deque(maxlen=75)` capacity from `price_history` (line 26). -/
def historyCapacity : ℕ := 75

/-- `PUMP_THRESHOLD = 8.0` (line 35). -/
def PUMP_THRESHOLD : ℚ := 8

/-- `DUMP_THRESHOLD = -8.0` (line 36). -/
def DUMP_THRESHOLD : ℚ := -8

/-- `ALERT_COOLDOWN_MINUTES * 60` seconds (lines 37, 309). -/
def alertCooldownSeconds : ℤ := 15 * 60

/-- One append on a bounded deque: when at (or beyond) capacity the oldest
element is evicted, as Python's `deque(maxlen=cap).append` does. -/
def dequeAppend (cap : ℕ) (h : List Sample) (s : Sample) : List Sample :=
  if h.length < cap then h ++ [s] else h.tail ++ [s]

/-- The per-instrument body of `update_price_history` (lines 208-211): a
non-positive price is dropped, a positive price is appended with eviction. -/
def ingest (h : List Sample) (now : ℤ) (price : ℚ) : List Sample :=
  if 0 < price then dequeAppend historyCapacity h (now, price) else h

/-- Run a sequence of ingest calls on one instrument's history, starting from
the given history. -/
def runIngest (h : List Sample) (ops : List Sample) : List Sample :=
  ops.foldl (fun acc s => ingest acc s.1 s.2) h

/-- The last `n` elements of a list, in their original order. -/
def lastN (n : ℕ) (l : List Sample) : List Sample :=
  l.drop (l.length - n)

/-- The baseline-selection loop of `calculate_1hour_change` /
`detect_pump_dump` (lines 228-232 and 256-260): scan oldest to newest,
remember the latest sample with `timestamp <= target`, stop at the first
sample past the target. -/
def scanBaseline (target : ℤ) : List Sample → Option Sample → Option Sample
  | [], acc => acc
  | (ts, p) :: rest, acc =>
    if ts ≤ target then scanBaseline target rest (some (ts, p)) else acc

/-- The baseline lookup inside `calculate_1hour_change` (lines 220-235):
scan for the latest sample at or before `now - lookback`; unavailable when
no sample qualifies or the qualifying price is non-positive. -/
def baselineLookup (history : List Sample) (now lookback : ℤ) : Option ℚ :=
  match scanBaseline (now - lookback) history none with
  | none => none
  | some (_, p) => if p ≤ 0 then none else some p

/-- `calculate_1hour_change` (lines 215-239): needs at least 2 samples, then
percentage change against the 1-hour (3600 s) baseline. -/
def calculate_1hour_change (history : List Sample) (now : ℤ) (currentPrice : ℚ) :
    Option ℚ :=
  if history.length < 2 then none
  else
    match baselineLookup history now 3600 with
    | none => none
    | some bp => some ((currentPrice - bp) / bp * 100)

/-- Alert kind of a pump/dump alert. -/
inductive Signal
  | PUMP
  | DUMP
deriving DecidableEq, Repr

/-- The alert record built by `detect_pump_dump` (price change and current
price; the message-formatting fields are not modelled). -/
structure PumpDumpAlert where
  type : Signal
  change : ℚ
  price : ℚ
deriving DecidableEq, Repr

/-- `detect_pump_dump` (lines 241-286): needs at least 12 samples, then
classifies the 1-hour change against the pump/dump thresholds. -/
def detect_pump_dump (history : List Sample) (now : ℤ) (currentPrice : ℚ) :
    Option PumpDumpAlert :=
  if history.length < 12 then none
  else
    match baselineLookup history now 3600 with
    | none => none
    | some bp =>
      let change := (currentPrice - bp) / bp * 100
      if PUMP_THRESHOLD ≤ change then some ⟨Signal.PUMP, change, currentPrice⟩
      else if change ≤ DUMP_THRESHOLD then some ⟨Signal.DUMP, change, currentPrice⟩
      else none

/-- A history is time-ordered when timestamps are non-decreasing from oldest
to newest. -/
def TimeOrdered (h : List Sample) : Prop :=
  List.Pairwise (fun a b : Sample => a.1 ≤ b.1) h

/-- `alert_cooldowns` (line 27): last-fire epoch time per (symbol, alert
kind), defaulting to 0 when no alert was ever fired, exactly as
`alert_cooldowns[symbol].get(alert_type, 0)` does. -/
structure CooldownState where
  lastFire : String → Signal → ℤ

/-- The fresh `defaultdict` state: every lookup yields the default 0. -/
def initialCooldowns : CooldownState := ⟨fun _ _ => 0⟩

/-- `is_alert_on_cooldown` (lines 305-310). -/
def is_alert_on_cooldown (st : CooldownState) (symbol : String) (kind : Signal)
    (now : ℤ) : Bool :=
  decide (now - st.lastFire symbol kind < alertCooldownSeconds)

/-- `set_alert_cooldown` (lines 312-314). -/
def set_alert_cooldown (st : CooldownState) (symbol : String) (kind : Signal)
    (now : ℤ) : CooldownState :=
  ⟨fun s k => if s = symbol ∧ k = kind then now else st.lastFire s k⟩

/-- The fire-or-suppress decision of `check_alerts` (lines 337-340): fire only
when not on cooldown, and record the fire time only on success. -/
def tryFire (st : CooldownState) (symbol : String) (kind : Signal) (now : ℤ) :
    Bool × CooldownState :=
  if is_alert_on_cooldown st symbol kind now then (false, st)
  else (true, set_alert_cooldown st symbol kind now)

/-- One ticker record as consumed by `check_alerts` (symbol, `lastPrice`,
`volume24`). -/
structure Ticker where
  symbol : String
  lastPrice : ℚ
  volume24 : ℚ

/-- The quote-currency suffix test `symbol.endswith('_USDT')` (lines 207,
326, 401), expressed on the symbol's character data. -/
def hasUSDTSuffix (s : String) : Bool :=
  "_USDT".data.isSuffixOf s.data

/-- The per-ticker body of `check_alerts` (lines 323-345): skip tickers whose
symbol lacks the `_USDT` suffix or whose price or 24h volume is non-positive;
otherwise consult the pump/dump detector and fire through the cooldown gate. -/
def alertStep (hist : String → List Sample) (now : ℤ)
    (acc : List (String × PumpDumpAlert) × CooldownState) (t : Ticker) :
    List (String × PumpDumpAlert) × CooldownState :=
  if hasUSDTSuffix t.symbol then
    if t.lastPrice ≤ 0 ∨ t.volume24 ≤ 0 then acc
    else
      match detect_pump_dump (hist t.symbol) now t.lastPrice with
      | none => acc
      | some a =>
        if is_alert_on_cooldown acc.2 t.symbol a.type now then acc
        else (acc.1 ++ [(t.symbol, a)], set_alert_cooldown acc.2 t.symbol a.type now)
  else acc

/-- `check_alerts` (lines 316-347): fold the per-ticker step over the fetched
tickers, accumulating emitted alerts and the updated cooldown state. -/
def check_alerts (hist : String → List Sample) (now : ℤ) (tickers : List Ticker)
    (st : CooldownState) : List (String × PumpDumpAlert) × CooldownState :=
  tickers.foldl (alertStep hist now) ([], st)

/-- A ticker is eligible for pump/dump classification: `_USDT` suffix,
positive price, positive 24h volume (lines 326-332). -/
def eligibleTicker (t : Ticker) : Bool :=
  hasUSDTSuffix t.symbol && decide (0 < t.lastPrice) && decide (0 < t.volume24)

/-- The global listing-tracker state (lines 29-32): the known spot and futures
symbol sets and the single shared `listing_initialized` flag.  Symbols are
abstracted to naturals. -/
structure ListingState where
  knownSpot : Finset ℕ
  knownFutures : Finset ℕ
  initialized : Bool

/-- The start-up state: empty known sets, not initialized. -/
def initialListing : ListingState := ⟨∅, ∅, false⟩

/-- `check_new_listings` (lines 147-198) with the network fetches abstracted
to the two fetched universes: while uninitialized, adopt both universes only
when both sanity floors (>1000 spot, >500 futures) are met, emitting nothing;
once initialized, emit the sorted set differences and union them into the
known sets.  Returns (spot alerts, futures alerts, new state). -/
def check_new_listings (st : ListingState) (spot futures : Finset ℕ) :
    List ℕ × List ℕ × ListingState :=
  if st.initialized = false then
    if 1000 < spot.card ∧ 500 < futures.card then
      ([], [], ⟨spot, futures, true⟩)
    else
      ([], [], st)
  else
    let newSpot := spot \ st.knownSpot
    let newFutures := futures \ st.knownFutures
    (newSpot.sort (· ≤ ·), newFutures.sort (· ≤ ·),
      ⟨st.knownSpot ∪ newSpot, st.knownFutures ∪ newFutures, st.initialized⟩)

/-- Run a sequence of listing-tracker cycles, concatenating the spot and
futures alerts across cycles. -/
def runListing : ListingState → List (Finset ℕ × Finset ℕ) →
    List ℕ × List ℕ × ListingState
  | st, [] => ([], [], st)
  | st, (sp, fu) :: rest =>
    let r := check_new_listings st sp fu
    let rr := runListing r.2.2 rest
    (r.1 ++ rr.1, r.2.1 ++ rr.2.1, rr.2.2)

/-- The summary-eligibility filter of `get_top_gainers_and_losers`
(lines 394-415): `_USDT` suffix, positive price, 24h volume above 100; the
summary entry for an eligible ticker is its 1-hour change, when available. -/
def summaryChange (hist : String → List Sample) (now : ℤ) (t : Ticker) :
    Option ℚ :=
  if hasUSDTSuffix t.symbol && decide (0 < t.lastPrice) && decide (100 < t.volume24)
  then calculate_1hour_change (hist t.symbol) now t.lastPrice
  else none

/-- A concrete 12-sample history (one sample per 5 minutes, constant price
100, oldest at time 0) used to exercise the scenario parts of the claims. -/
def sampleHistory12 : List Sample :=
  [(0, 100), (300, 100), (600, 100), (900, 100), (1200, 100), (1500, 100),
   (1800, 100), (2100, 100), (2400, 100), (2700, 100), (3000, 100), (3300, 100)]

/-! ### Baseline-scan characterization -/

/-- On a time-ordered history, the break-on-first-late scan selects exactly
the last sample whose timestamp is at or before the target. -/
lemma scanBaseline_eq_getLast (target : ℤ) :
    ∀ (h : List Sample) (acc : Option Sample), TimeOrdered h →
      scanBaseline target h acc =
        ((h.filter fun s => decide (s.1 ≤ target)).getLast?).elim acc some := by
  intro h
  induction h with
  | nil => intro acc _; simp [scanBaseline]
  | cons hd tl ih =>
    intro acc hord
    obtain ⟨ts, p⟩ := hd
    rw [TimeOrdered, List.pairwise_cons] at hord
    by_cases hle : ts ≤ target
    · have hstep : scanBaseline target ((ts, p) :: tl) acc
          = scanBaseline target tl (some (ts, p)) := by
        simp [scanBaseline, hle]
      rw [hstep, ih _ hord.2]
      have hf : ((ts, p) :: tl).filter (fun s => decide (s.1 ≤ target))
          = (ts, p) :: tl.filter (fun s => decide (s.1 ≤ target)) := by
        simp [List.filter_cons, hle]
      rw [hf]
      cases hfl : tl.filter (fun s => decide (s.1 ≤ target)) with
      | nil => simp
      | cons b l =>
        rw [List.getLast?_cons_cons,
          List.getLast?_eq_getLast_of_ne_nil (List.cons_ne_nil b l)]
        simp
    · have hstep : scanBaseline target ((ts, p) :: tl) acc = acc := by
        simp [scanBaseline, hle]
      have hf : ((ts, p) :: tl).filter (fun s => decide (s.1 ≤ target)) = [] := by
        rw [List.filter_eq_nil_iff]
        intro a ha
        rcases List.mem_cons.1 ha with rfl | hmem
        · simpa using hle
        · have := hord.1 a hmem
          simp only [decide_eq_true_eq]
          omega
      rw [hstep, hf]
      simp

/-- A resolved baseline is positive: the lookup filters out non-positive
qualifying prices. -/
lemma baselineLookup_pos {h : List Sample} {now lb : ℤ} {bp : ℚ}
    (hbl : baselineLookup h now lb = some bp) : 0 < bp := by
  unfold baselineLookup at hbl
  cases hs : scanBaseline (now - lb) h none with
  | none => rw [hs] at hbl; exact absurd hbl (by simp)
  | some s =>
    obtain ⟨ts, p⟩ := s
    rw [hs] at hbl
    by_cases hp : p ≤ 0
    · simp [hp] at hbl
    · simp [hp] at hbl
      subst hbl
      linarith

/-- C1: on a time-ordered history, the baseline lookup returns the price of
the last sample with timestamp at or before `now − lookback` (unavailable
when no sample qualifies or that price is non-positive); in particular on
samples (t−70min, 100), (t−61min, 100), (t−5min, 112) with a 1-hour lookback
it returns 100, the t−61min price. -/
theorem C1_baseline_lookup (h : List Sample) (now lookback : ℤ)
    (hord : TimeOrdered h) :
    (baselineLookup h now lookback =
      ((h.filter fun s => decide (s.1 ≤ now - lookback)).getLast?).elim none
        (fun s => if s.2 ≤ 0 then none else some s.2)) ∧
    baselineLookup [(now - 4200, 100), (now - 3660, 100), (now - 300, 112)]
      now 3600 = some 100 := by
  constructor
  · unfold baselineLookup
    rw [scanBaseline_eq_getLast _ _ _ hord]
    cases hgl : (h.filter fun s => decide (s.1 ≤ now - lookback)).getLast? with
    | none => simp
    | some s => obtain ⟨ts, p⟩ := s; simp
  · have h1 : now - 4200 ≤ now - 3600 := by omega
    have h2 : now - 3660 ≤ now - 3600 := by omega
    have h3 : ¬(now - 300 ≤ now - 3600) := by omega
    simp [baselineLookup, scanBaseline, h1, h2, h3]

/-- C1 witness: the lookup characterization instantiated on the concrete
three-sample scenario history at `now = 10000`. -/
theorem C1_baseline_lookup_witness :
    baselineLookup [((10000 : ℤ) - 4200, 100), (10000 - 3660, 100),
      (10000 - 300, 112)] 10000 3600 = some 100 :=
  (C1_baseline_lookup [(5800, 100), (6340, 100), (9700, 112)] 10000 3600
    (by unfold TimeOrdered; decide)).2

/-- C2: the pump/dump detector returns no signal below 12 samples; with a
resolved (hence positive) baseline it returns PUMP exactly when the
percentage change is ≥ +8, DUMP exactly when ≤ −8, and nothing otherwise;
baseline 100 with current 109/91/95 yields PUMP +9 / DUMP −9 / no signal. -/
theorem C2_detect_pump_dump (h : List Sample) (now : ℤ) (cur : ℚ) :
    (h.length < 12 → detect_pump_dump h now cur = none) ∧
    (∀ bp : ℚ, 12 ≤ h.length → baselineLookup h now 3600 = some bp →
      0 < bp ∧
      (detect_pump_dump h now cur
          = some ⟨Signal.PUMP, (cur - bp) / bp * 100, cur⟩ ↔
        8 ≤ (cur - bp) / bp * 100) ∧
      (detect_pump_dump h now cur
          = some ⟨Signal.DUMP, (cur - bp) / bp * 100, cur⟩ ↔
        (cur - bp) / bp * 100 ≤ -8) ∧
      (detect_pump_dump h now cur = none ↔
        -8 < (cur - bp) / bp * 100 ∧ (cur - bp) / bp * 100 < 8)) ∧
    detect_pump_dump sampleHistory12 10000 109
      = some ⟨Signal.PUMP, 9, 109⟩ ∧
    detect_pump_dump sampleHistory12 10000 91
      = some ⟨Signal.DUMP, -9, 91⟩ ∧
    detect_pump_dump sampleHistory12 10000 95 = none := by
  refine ⟨?_, ?_, ?_, ?_, ?_⟩
  · intro hlt
    unfold detect_pump_dump
    rw [if_pos hlt]
  · intro bp hlen hbl
    have hbp := baselineLookup_pos hbl
    have hdet : detect_pump_dump h now cur =
        (if 8 ≤ (cur - bp) / bp * 100 then
          some ⟨Signal.PUMP, (cur - bp) / bp * 100, cur⟩
        else if (cur - bp) / bp * 100 ≤ -8 then
          some ⟨Signal.DUMP, (cur - bp) / bp * 100, cur⟩
        else none) := by
      unfold detect_pump_dump
      rw [if_neg (by omega), hbl]
      rfl
    refine ⟨hbp, ?_, ?_, ?_⟩ <;> rw [hdet] <;> split_ifs with h1 h2
    · simp [h1]
    · constructor
      · intro he; simp at he
      · intro hc; exact absurd hc h1
    · constructor
      · intro he; simp at he
      · intro hc; exact absurd hc h1
    · constructor
      · intro he; simp at he
      · intro hc; exact ((by linarith : False)).elim
    · simp [h2]
    · constructor
      · intro he; simp at he
      · intro hc; exact absurd hc h2
    · constructor
      · intro he; simp at he
      · rintro ⟨-, h3⟩; exact ((by linarith : False)).elim
    · constructor
      · intro he; simp at he
      · rintro ⟨h3, -⟩; exact ((by linarith : False)).elim
    · simp
      exact ⟨lt_of_not_le h2, lt_of_not_le h1⟩
  · norm_num [detect_pump_dump, sampleHistory12, baselineLookup, scanBaseline,
      PUMP_THRESHOLD, DUMP_THRESHOLD]
  · norm_num [detect_pump_dump, sampleHistory12, baselineLookup, scanBaseline,
      PUMP_THRESHOLD, DUMP_THRESHOLD]
  · norm_num [detect_pump_dump, sampleHistory12, baselineLookup, scanBaseline,
      PUMP_THRESHOLD, DUMP_THRESHOLD]

/-- C2 witness: the classifier characterization instantiated on the concrete
12-sample history with baseline 100 and current price 109 at `now = 10000`. -/
theorem C2_detect_pump_dump_witness :
    0 < (100 : ℚ) ∧
    (detect_pump_dump sampleHistory12 10000 109
        = some ⟨Signal.PUMP, ((109 : ℚ) - 100) / 100 * 100, 109⟩ ↔
      8 ≤ ((109 : ℚ) - 100) / 100 * 100) ∧
    (detect_pump_dump sampleHistory12 10000 109
        = some ⟨Signal.DUMP, ((109 : ℚ) - 100) / 100 * 100, 109⟩ ↔
      ((109 : ℚ) - 100) / 100 * 100 ≤ -8) ∧
    (detect_pump_dump sampleHistory12 10000 109 = none ↔
      -8 < ((109 : ℚ) - 100) / 100 * 100 ∧ ((109 : ℚ) - 100) / 100 * 100 < 8) :=
  (C2_detect_pump_dump sampleHistory12 10000 109).2.1 100 (by decide) (by decide)

/-- C10: the 12-sample minimum gates only the pump/dump detector: with a
history of at least 2 but fewer than 12 samples and a resolved 1-hour
baseline, `calculate_1hour_change` still returns the percentage change while
`detect_pump_dump` returns no signal. -/
theorem C10_summary_not_gated (h : List Sample) (now : ℤ) (cur bp : ℚ)
    (hlen2 : 2 ≤ h.length) (hlen12 : h.length < 12)
    (hbl : baselineLookup h now 3600 = some bp) :
    calculate_1hour_change h now cur = some ((cur - bp) / bp * 100) ∧
    detect_pump_dump h now cur = none := by
  constructor
  · unfold calculate_1hour_change
    rw [if_neg (by omega), hbl]
  · unfold detect_pump_dump
    rw [if_pos hlen12]

/-- C10 witness: a 2-sample history (baseline 100) at `now = 10000` with
current price 109 gets a summary change of +9% and no pump/dump signal. -/
theorem C10_summary_not_gated_witness :
    calculate_1hour_change [((0 : ℤ), (100 : ℚ)), (300, 100)] 10000 109
        = some (((109 : ℚ) - 100) / 100 * 100) ∧
    detect_pump_dump [((0 : ℤ), (100 : ℚ)), (300, 100)] 10000 109 = none :=
  C10_summary_not_gated [(0, 100), (300, 100)] 10000 109 100
    (by decide) (by decide) (by decide)

/-! ### Price-history retention -/

/-- A bounded-deque append on the last-`cap` view of the insertion log is the
last-`cap` view of the log extended by the new element. -/
lemma dequeAppend_lastN (cap : ℕ) (hcap : 0 < cap) (pre : List Sample)
    (s : Sample) :
    dequeAppend cap (lastN cap pre) s = lastN cap (pre ++ [s]) := by
  unfold dequeAppend lastN
  by_cases hl : pre.length < cap
  · have h0 : pre.length - cap = 0 := by omega
    have h1 : pre.length + 1 - cap = 0 := by omega
    rw [h0, List.drop_zero, if_pos hl]
    rw [List.length_append, List.length_singleton, h1, List.drop_zero]
  · have hge : cap ≤ pre.length := by omega
    have hlen : (pre.drop (pre.length - cap)).length = cap := by
      rw [List.length_drop]; omega
    rw [if_neg (by omega)]
    rw [List.tail_drop]
    rw [List.length_append, List.length_singleton,
      List.drop_append_of_le_length (by omega)]
    have : pre.length - cap + 1 = pre.length + 1 - cap := by omega
    rw [this]

/-- Ingesting a batch on top of the last-`capacity` view of an insertion log
yields the last-`capacity` view of the log extended by the positive-price
insertions. -/
lemma runIngest_lastN (ops : List Sample) : ∀ pre : List Sample,
    runIngest (lastN historyCapacity pre) ops
      = lastN historyCapacity (pre ++ ops.filter fun s => decide (0 < s.2)) := by
  induction ops with
  | nil => intro pre; simp [runIngest]
  | cons s rest ih =>
    intro pre
    unfold runIngest at ih ⊢
    rw [List.foldl_cons]
    by_cases hp : 0 < s.2
    · have hstep : ingest (lastN historyCapacity pre) s.1 s.2
          = lastN historyCapacity (pre ++ [s]) := by
        unfold ingest
        rw [if_pos hp]
        exact dequeAppend_lastN _ (by norm_num [historyCapacity]) pre s
      rw [hstep, ih (pre ++ [s])]
      rw [List.filter_cons_of_pos (by simpa using hp), List.append_assoc]
      rfl
    · have hstep : ingest (lastN historyCapacity pre) s.1 s.2
          = lastN historyCapacity pre := by
        unfold ingest
        rw [if_neg hp]
      rw [hstep, ih pre, List.filter_cons_of_neg (by simpa using hp)]

/-- C7: a non-positive price leaves the history unchanged; a positive price
appends, evicting the oldest sample when at capacity; consequently a history
built from any ingest sequence holds at most 75 samples, and equals exactly
the most recent 75 positive-price insertions in original insertion order. -/
theorem C7_history_retention (ops : List Sample) (h : List Sample) (now : ℤ)
    (price : ℚ) :
    (price ≤ 0 → ingest h now price = h) ∧
    (0 < price → h.length = historyCapacity →
      ingest h now price = h.tail ++ [(now, price)]) ∧
    (runIngest [] ops).length ≤ historyCapacity ∧
    runIngest [] ops
      = lastN historyCapacity (ops.filter fun s => decide (0 < s.2)) := by
  have hrun : runIngest [] ops
      = lastN historyCapacity (ops.filter fun s => decide (0 < s.2)) := by
    have := runIngest_lastN ops []
    simpa [lastN] using this
  refine ⟨?_, ?_, ?_, hrun⟩
  · intro hp
    unfold ingest
    rw [if_neg (by linarith)]
  · intro hp hlen
    unfold ingest dequeAppend
    rw [if_pos hp, if_neg (by omega)]
  · rw [hrun]
    unfold lastN
    rw [List.length_drop]
    omega

/-- C7 witness: a mixed batch (with one non-positive price dropped), a
non-positive no-op, and an eviction at capacity, all at concrete inputs. -/
theorem C7_history_retention_witness :
    ingest [((0 : ℤ), (5 : ℚ))] 10 (-3) = [((0 : ℤ), (5 : ℚ))] ∧
    ingest (List.replicate 75 ((0 : ℤ), (1 : ℚ))) 1 2
      = (List.replicate 75 ((0 : ℤ), (1 : ℚ))).tail ++ [(1, 2)] ∧
    (runIngest [] [(0, 5), (10, -3), (20, 7)]).length ≤ historyCapacity ∧
    runIngest [] [(0, 5), (10, -3), (20, 7)]
      = lastN historyCapacity
          (([(0, 5), (10, -3), (20, 7)] : List Sample).filter
            fun s => decide (0 < s.2)) :=
  ⟨(C7_history_retention [] [(0, 5)] 10 (-3)).1 (by norm_num),
   (C7_history_retention [] (List.replicate 75 ((0 : ℤ), (1 : ℚ))) 1 2).2.1
     (by norm_num) (by simp [historyCapacity]),
   (C7_history_retention [(0, 5), (10, -3), (20, 7)] [] 0 0).2.2.1,
   (C7_history_retention [(0, 5), (10, -3), (20, 7)] [] 0 0).2.2.2⟩

/-! ### Cooldown gate -/

/-- C3 counterexample: the claim's "a first attempt at t=0 succeeds, even with
no prior fire recorded" fails on the code: absence of a prior fire is stored
as last-fire time 0 (`alert_cooldowns[symbol].get(alert_type, 0)`), so a
first attempt at absolute time 0 satisfies `0 − 0 < 900` and is rejected. -/
theorem C3_cooldown_counterexample :
    (tryFire initialCooldowns "BTC_USDT" Signal.PUMP 0).1 = false := rfl

/-- C3 amended: a fire attempt with `now − lastFire < cooldown` is rejected
and leaves the state unchanged (a suppressed check never resets the timer);
an attempt with `now − lastFire ≥ cooldown` succeeds and sets exactly this
pair's fire time to `now`.  Absence of a prior fire is represented as
last-fire time 0, so a first attempt succeeds exactly when `now ≥ cooldown`
(always true for wall-clock epoch timestamps); the 0 / +10min / +16min
scenario holds from any start time `T ≥ cooldown`. -/
theorem C3_cooldown_gate (st : CooldownState) (symbol : String) (kind : Signal)
    (now : ℤ) :
    (now - st.lastFire symbol kind < alertCooldownSeconds →
      tryFire st symbol kind now = (false, st)) ∧
    (alertCooldownSeconds ≤ now - st.lastFire symbol kind →
      (tryFire st symbol kind now).1 = true ∧
      (tryFire st symbol kind now).2.lastFire symbol kind = now ∧
      ∀ (s : String) (k : Signal), ¬(s = symbol ∧ k = kind) →
        (tryFire st symbol kind now).2.lastFire s k = st.lastFire s k) ∧
    (∀ T : ℤ, alertCooldownSeconds ≤ T →
      (tryFire initialCooldowns symbol kind T).1 = true ∧
      tryFire ((tryFire initialCooldowns symbol kind T).2) symbol kind (T + 600)
        = (false, (tryFire initialCooldowns symbol kind T).2) ∧
      (tryFire ((tryFire initialCooldowns symbol kind T).2) symbol kind
        (T + 960)).1 = true) := by
  have hfire : ∀ (st' : CooldownState) (n : ℤ),
      alertCooldownSeconds ≤ n - st'.lastFire symbol kind →
      tryFire st' symbol kind n
        = (true, set_alert_cooldown st' symbol kind n) := by
    intro st' n hge
    have hc : is_alert_on_cooldown st' symbol kind n = false := by
      simp only [is_alert_on_cooldown, decide_eq_false_iff_not, not_lt]
      exact hge
    simp [tryFire, hc]
  have hsupp : ∀ (st' : CooldownState) (n : ℤ),
      n - st'.lastFire symbol kind < alertCooldownSeconds →
      tryFire st' symbol kind n = (false, st') := by
    intro st' n hlt
    have hc : is_alert_on_cooldown st' symbol kind n = true := by
      simp only [is_alert_on_cooldown, decide_eq_true_eq]
      exact hlt
    simp [tryFire, hc]
  refine ⟨hsupp st now, ?_, ?_⟩
  · intro hge
    rw [hfire st now hge]
    refine ⟨rfl, by simp [set_alert_cooldown], ?_⟩
    intro s k hsk
    simp only [set_alert_cooldown]
    rw [if_neg hsk]
  · intro T hT
    have h0 : tryFire initialCooldowns symbol kind T
        = (true, set_alert_cooldown initialCooldowns symbol kind T) := by
      apply hfire
      simpa [initialCooldowns] using hT
    have hlast : (tryFire initialCooldowns symbol kind T).2.lastFire symbol kind
        = T := by
      rw [h0]
      simp [set_alert_cooldown]
    refine ⟨by rw [h0], ?_, ?_⟩
    · apply hsupp
      rw [hlast]
      norm_num [alertCooldownSeconds]
    · rw [hfire _ _ (by rw [hlast]; norm_num [alertCooldownSeconds])]

/-- C3 witness: at symbol BTC_USDT / kind PUMP: a suppressed attempt at
`now = 100` (within 900 s of the default last-fire 0) returns false without
state change, and from start time `T = 900` the succeed / reject at +600 s /
succeed at +960 s scenario plays out. -/
theorem C3_cooldown_gate_witness :
    tryFire initialCooldowns "BTC_USDT" Signal.PUMP 100
      = (false, initialCooldowns) ∧
    (tryFire initialCooldowns "BTC_USDT" Signal.PUMP 900).1 = true ∧
    tryFire ((tryFire initialCooldowns "BTC_USDT" Signal.PUMP 900).2)
        "BTC_USDT" Signal.PUMP 1500
      = (false, (tryFire initialCooldowns "BTC_USDT" Signal.PUMP 900).2) ∧
    (tryFire ((tryFire initialCooldowns "BTC_USDT" Signal.PUMP 900).2)
        "BTC_USDT" Signal.PUMP 1860).1 = true :=
  ⟨(C3_cooldown_gate initialCooldowns "BTC_USDT" Signal.PUMP 100).1
      (by norm_num [initialCooldowns, alertCooldownSeconds]),
   ((C3_cooldown_gate initialCooldowns "BTC_USDT" Signal.PUMP 0).2.2 900
      (by norm_num [alertCooldownSeconds])).1,
   ((C3_cooldown_gate initialCooldowns "BTC_USDT" Signal.PUMP 0).2.2 900
      (by norm_num [alertCooldownSeconds])).2.1,
   ((C3_cooldown_gate initialCooldowns "BTC_USDT" Signal.PUMP 0).2.2 900
      (by norm_num [alertCooldownSeconds])).2.2⟩

/-! ### Listing tracker -/

/-- Once initialized, a listing cycle returns the sorted set differences and
unions them into the known sets, leaving the flag untouched. -/
lemma check_new_listings_initialized (st : ListingState) (sp fu : Finset ℕ)
    (hinit : st.initialized = true) :
    check_new_listings st sp fu
      = ((sp \ st.knownSpot).sort (· ≤ ·), (fu \ st.knownFutures).sort (· ≤ ·),
         ⟨st.knownSpot ∪ (sp \ st.knownSpot),
          st.knownFutures ∪ (fu \ st.knownFutures), st.initialized⟩) := by
  unfold check_new_listings
  rw [hinit]
  simp

/-- From an initialized state, every run of listing cycles keeps the tracker
initialized and only grows both known sets. -/
lemma runListing_grows : ∀ (feeds : List (Finset ℕ × Finset ℕ))
    (st : ListingState), st.initialized = true →
    st.knownSpot ⊆ (runListing st feeds).2.2.knownSpot ∧
    st.knownFutures ⊆ (runListing st feeds).2.2.knownFutures ∧
    (runListing st feeds).2.2.initialized = true := by
  intro feeds
  induction feeds with
  | nil => intro st hinit; exact ⟨Finset.Subset.refl _, Finset.Subset.refl _, hinit⟩
  | cons p rest ih =>
    intro st hinit
    obtain ⟨sp, fu⟩ := p
    have hstep := check_new_listings_initialized st sp fu hinit
    have hrec := ih ⟨st.knownSpot ∪ (sp \ st.knownSpot),
      st.knownFutures ∪ (fu \ st.knownFutures), st.initialized⟩ hinit
    unfold runListing
    rw [hstep]
    exact ⟨Finset.Subset.trans Finset.subset_union_left hrec.1,
      Finset.Subset.trans Finset.subset_union_left hrec.2.1, hrec.2.2⟩

/-- C6: while uninitialized, a cycle whose universes miss the sanity floor
(spot ≤ 1000 or futures ≤ 500) emits nothing and changes no state; a cycle
meeting both floors adopts the universes as the known sets, flips to
initialized, and emits nothing. -/
theorem C6_bootstrap_guard (st : ListingState) (spot futures : Finset ℕ)
    (hinit : st.initialized = false) :
    ((spot.card ≤ 1000 ∨ futures.card ≤ 500) →
      check_new_listings st spot futures = ([], [], st)) ∧
    (1000 < spot.card → 500 < futures.card →
      check_new_listings st spot futures
        = ([], [], ⟨spot, futures, true⟩)) := by
  constructor
  · intro hlow
    unfold check_new_listings
    rw [hinit]
    rw [if_pos rfl, if_neg (by rintro ⟨h1, h2⟩; rcases hlow with h | h <;> omega)]
  · intro h1 h2
    unfold check_new_listings
    rw [hinit]
    rw [if_pos rfl, if_pos ⟨h1, h2⟩]

/-- C6 witness: from the fresh state, a spot universe of size 50 is a
state-preserving no-op, while universes of sizes 1500 and 501 initialize the
tracker with empty diffs. -/
theorem C6_bootstrap_guard_witness :
    check_new_listings initialListing (Finset.range 50) (Finset.range 501)
      = ([], [], initialListing) ∧
    check_new_listings initialListing (Finset.range 1500) (Finset.range 501)
      = ([], [], ⟨Finset.range 1500, Finset.range 501, true⟩) :=
  ⟨(C6_bootstrap_guard initialListing (Finset.range 50) (Finset.range 501)
      rfl).1 (Or.inl (by simp)),
   (C6_bootstrap_guard initialListing (Finset.range 1500) (Finset.range 501)
      rfl).2 (by simp) (by simp)⟩

/-- C8: while initialized, a cycle returns exactly the sorted set difference
`universe − known`, unions it into the known set (equivalently the new known
set is `known ∪ universe`), never removes identifiers (the known set only
grows, across whole call sequences), and a universe that only lost
identifiers yields an empty diff. -/
theorem C8_initialized_diff (st : ListingState) (spot futures : Finset ℕ)
    (hinit : st.initialized = true) :
    (check_new_listings st spot futures).1
      = (spot \ st.knownSpot).sort (· ≤ ·) ∧
    (check_new_listings st spot futures).2.1
      = (futures \ st.knownFutures).sort (· ≤ ·) ∧
    (check_new_listings st spot futures).2.2.knownSpot
      = st.knownSpot ∪ spot ∧
    (check_new_listings st spot futures).2.2.knownFutures
      = st.knownFutures ∪ futures ∧
    (spot ⊆ st.knownSpot → (check_new_listings st spot futures).1 = []) ∧
    (futures ⊆ st.knownFutures → (check_new_listings st spot futures).2.1 = []) ∧
    (∀ feeds : List (Finset ℕ × Finset ℕ),
      st.knownSpot ⊆ (runListing st feeds).2.2.knownSpot ∧
      st.knownFutures ⊆ (runListing st feeds).2.2.knownFutures) := by
  have hstep := check_new_listings_initialized st spot futures hinit
  rw [hstep]
  refine ⟨rfl, rfl, Finset.union_sdiff_self_eq_union,
    Finset.union_sdiff_self_eq_union, ?_, ?_, ?_⟩
  · intro hsub
    rw [Finset.sdiff_eq_empty_iff_subset.2 hsub]
    exact Finset.sort_empty _
  · intro hsub
    rw [Finset.sdiff_eq_empty_iff_subset.2 hsub]
    exact Finset.sort_empty _
  · intro feeds
    exact ⟨(runListing_grows feeds st hinit).1, (runListing_grows feeds st hinit).2.1⟩

/-- C8 witness: from known sets {1} (spot) and {2} (futures) in the
initialized state, feeding spot {1, 3} emits exactly [3] and grows the known
set to {1} ∪ {1, 3}, while feeding futures {2} (an id removed is impossible
here; equal set) emits nothing; the known sets grow along a concrete feed. -/
theorem C8_initialized_diff_witness :
    (check_new_listings ⟨{1}, {2}, true⟩ {1, 3} {2}).1
      = (({1, 3} : Finset ℕ) \ {1}).sort (· ≤ ·) ∧
    (check_new_listings ⟨{1}, {2}, true⟩ {1, 3} {2}).2.2.knownSpot
      = ({1} : Finset ℕ) ∪ {1, 3} ∧
    (({2} : Finset ℕ) ⊆ {2} →
      (check_new_listings ⟨{1}, {2}, true⟩ {1, 3} {2}).2.1 = []) ∧
    (({1} : Finset ℕ)
      ⊆ (runListing ⟨{1}, {2}, true⟩ [({1, 3, 4}, {2, 5})]).2.2.knownSpot) :=
  ⟨(C8_initialized_diff ⟨{1}, {2}, true⟩ {1, 3} {2} rfl).1,
   (C8_initialized_diff ⟨{1}, {2}, true⟩ {1, 3} {2} rfl).2.2.1,
   (C8_initialized_diff ⟨{1}, {2}, true⟩ {1, 3} {2} rfl).2.2.2.2.2.1,
   ((C8_initialized_diff ⟨{1}, {2}, true⟩ {1, 3} {2} rfl).2.2.2.2.2.2
     [({1, 3, 4}, {2, 5})]).1⟩

/-- One-step unfolding of `runListing` on a cons cell. -/
lemma runListing_cons (st : ListingState) (sp fu : Finset ℕ)
    (rest : List (Finset ℕ × Finset ℕ)) :
    runListing st ((sp, fu) :: rest)
      = ((check_new_listings st sp fu).1
           ++ (runListing (check_new_listings st sp fu).2.2 rest).1,
         (check_new_listings st sp fu).2.1
           ++ (runListing (check_new_listings st sp fu).2.2 rest).2.1,
         (runListing (check_new_listings st sp fu).2.2 rest).2.2) := rfl

/-- Spot-side dependence: two runs with pointwise-equal spot universes, a
common initialization flag and known spot set, and pointwise-agreeing futures
floor outcomes produce identical spot alerts, known spot sets, and
initialization flags. -/
lemma runListing_spot_dependence :
    ∀ (feedsA feedsB : List (Finset ℕ × Finset ℕ)),
    List.Forall₂ (fun ab cd : Finset ℕ × Finset ℕ =>
      ab.1 = cd.1 ∧ (500 < ab.2.card ↔ 500 < cd.2.card)) feedsA feedsB →
    ∀ (stA stB : ListingState),
    stA.initialized = stB.initialized → stA.knownSpot = stB.knownSpot →
    (runListing stA feedsA).1 = (runListing stB feedsB).1 ∧
    (runListing stA feedsA).2.2.knownSpot
      = (runListing stB feedsB).2.2.knownSpot ∧
    (runListing stA feedsA).2.2.initialized
      = (runListing stB feedsB).2.2.initialized := by
  intro feedsA feedsB hf
  induction hf with
  | nil =>
    intro stA stB hinit hks
    exact ⟨rfl, hks, hinit⟩
  | cons hpair htail ih =>
    intro stA stB hinit hks
    obtain ⟨hsp, hfloor⟩ := hpair
    rename_i a b la lb
    obtain ⟨spA, fuA⟩ := a
    obtain ⟨spB, fuB⟩ := b
    obtain rfl : spA = spB := hsp
    cases hi : stA.initialized with
    | false =>
      have hiB : stB.initialized = false := by rw [← hinit, hi]
      by_cases hc : 1000 < spA.card ∧ 500 < fuA.card
      · have hcB : 1000 < spA.card ∧ 500 < fuB.card :=
          ⟨hc.1, hfloor.1 hc.2⟩
        have hA : check_new_listings stA spA fuA
            = ([], [], ⟨spA, fuA, true⟩) := by
          unfold check_new_listings
          rw [hi, if_pos rfl, if_pos hc]
        have hB : check_new_listings stB spA fuB
            = ([], [], ⟨spA, fuB, true⟩) := by
          unfold check_new_listings
          rw [hiB, if_pos rfl, if_pos hcB]
        simp only [runListing_cons, hA, hB, List.nil_append]
        exact ih ⟨spA, fuA, true⟩ ⟨spA, fuB, true⟩ rfl rfl
      · have hcB : ¬(1000 < spA.card ∧ 500 < fuB.card) := by
          rintro ⟨h1, h2⟩
          exact hc ⟨h1, hfloor.2 h2⟩
        have hA : check_new_listings stA spA fuA = ([], [], stA) := by
          unfold check_new_listings
          rw [hi, if_pos rfl, if_neg hc]
        have hB : check_new_listings stB spA fuB = ([], [], stB) := by
          unfold check_new_listings
          rw [hiB, if_pos rfl, if_neg hcB]
        simp only [runListing_cons, hA, hB, List.nil_append]
        exact ih stA stB hinit hks
    | true =>
      have hiB : stB.initialized = true := by rw [← hinit, hi]
      simp only [runListing_cons, check_new_listings_initialized stA spA fuA hi,
        check_new_listings_initialized stB spA fuB hiB]
      rw [hks]
      have := ih ⟨stB.knownSpot ∪ (spA \ stB.knownSpot),
          stA.knownFutures ∪ (fuA \ stA.knownFutures), stA.initialized⟩
        ⟨stB.knownSpot ∪ (spA \ stB.knownSpot),
          stB.knownFutures ∪ (fuB \ stB.knownFutures), stB.initialized⟩
        hinit rfl
      exact ⟨by rw [this.1], this.2.1, this.2.2⟩

/-- Futures-side dependence, symmetric to the spot side. -/
lemma runListing_futures_dependence :
    ∀ (feedsA feedsB : List (Finset ℕ × Finset ℕ)),
    List.Forall₂ (fun ab cd : Finset ℕ × Finset ℕ =>
      ab.2 = cd.2 ∧ (1000 < ab.1.card ↔ 1000 < cd.1.card)) feedsA feedsB →
    ∀ (stA stB : ListingState),
    stA.initialized = stB.initialized → stA.knownFutures = stB.knownFutures →
    (runListing stA feedsA).2.1 = (runListing stB feedsB).2.1 ∧
    (runListing stA feedsA).2.2.knownFutures
      = (runListing stB feedsB).2.2.knownFutures ∧
    (runListing stA feedsA).2.2.initialized
      = (runListing stB feedsB).2.2.initialized := by
  intro feedsA feedsB hf
  induction hf with
  | nil =>
    intro stA stB hinit hkf
    exact ⟨rfl, hkf, hinit⟩
  | cons hpair htail ih =>
    intro stA stB hinit hkf
    obtain ⟨hfu, hfloor⟩ := hpair
    rename_i a b la lb
    obtain ⟨spA, fuA⟩ := a
    obtain ⟨spB, fuB⟩ := b
    obtain rfl : fuA = fuB := hfu
    cases hi : stA.initialized with
    | false =>
      have hiB : stB.initialized = false := by rw [← hinit, hi]
      by_cases hc : 1000 < spA.card ∧ 500 < fuA.card
      · have hcB : 1000 < spB.card ∧ 500 < fuA.card :=
          ⟨hfloor.1 hc.1, hc.2⟩
        have hA : check_new_listings stA spA fuA
            = ([], [], ⟨spA, fuA, true⟩) := by
          unfold check_new_listings
          rw [hi, if_pos rfl, if_pos hc]
        have hB : check_new_listings stB spB fuA
            = ([], [], ⟨spB, fuA, true⟩) := by
          unfold check_new_listings
          rw [hiB, if_pos rfl, if_pos hcB]
        simp only [runListing_cons, hA, hB, List.nil_append]
        exact ih ⟨spA, fuA, true⟩ ⟨spB, fuA, true⟩ rfl rfl
      · have hcB : ¬(1000 < spB.card ∧ 500 < fuA.card) := by
          rintro ⟨h1, h2⟩
          exact hc ⟨hfloor.2 h1, h2⟩
        have hA : check_new_listings stA spA fuA = ([], [], stA) := by
          unfold check_new_listings
          rw [hi, if_pos rfl, if_neg hc]
        have hB : check_new_listings stB spB fuA = ([], [], stB) := by
          unfold check_new_listings
          rw [hiB, if_pos rfl, if_neg hcB]
        simp only [runListing_cons, hA, hB, List.nil_append]
        exact ih stA stB hinit hkf
    | true =>
      have hiB : stB.initialized = true := by rw [← hinit, hi]
      simp only [runListing_cons, check_new_listings_initialized stA spA fuA hi,
        check_new_listings_initialized stB spB fuA hiB]
      rw [hkf]
      have := ih ⟨stA.knownSpot ∪ (spA \ stA.knownSpot),
          stB.knownFutures ∪ (fuA \ stB.knownFutures), stA.initialized⟩
        ⟨stB.knownSpot ∪ (spB \ stB.knownSpot),
          stB.knownFutures ∪ (fuA \ stB.knownFutures), stB.initialized⟩
        hinit rfl
      exact ⟨by rw [this.1], this.2.1, this.2.2⟩

/-- C4 counterexample: the spot and futures trackers share the single
`listing_initialized` flag, so they are not independent: two runs fed the
same spot universes (sizes 1001 then 1002) but different futures universes
(size 501 vs empty) emit different spot diffs — the first run initializes
and reports symbol 1001 as newly listed, the second stays uninitialized and
reports nothing. -/
theorem C4_shared_flag_counterexample :
    (runListing initialListing
      [(Finset.range 1001, Finset.range 501),
       (Finset.range 1002, Finset.range 501)]).1
    ≠ (runListing initialListing
      [(Finset.range 1001, (∅ : Finset ℕ)),
       (Finset.range 1002, (∅ : Finset ℕ))]).1 := by
  have hA1 : check_new_listings initialListing (Finset.range 1001)
      (Finset.range 501)
      = ([], [], ⟨Finset.range 1001, Finset.range 501, true⟩) := by
    unfold check_new_listings initialListing
    rw [if_pos rfl, if_pos (by simp)]
  have hdiff : Finset.range 1002 \ Finset.range 1001 = {1001} := by
    ext x
    simp only [Finset.mem_sdiff, Finset.mem_range, Finset.mem_singleton]
    omega
  have hA2 : check_new_listings ⟨Finset.range 1001, Finset.range 501, true⟩
      (Finset.range 1002) (Finset.range 501)
      = ([1001], [],
         ⟨Finset.range 1001 ∪ {1001}, Finset.range 501 ∪ ∅, true⟩) := by
    rw [check_new_listings_initialized _ _ _ rfl]
    rw [hdiff, Finset.sdiff_self]
    rw [Finset.sort_singleton, Finset.sort_empty]
  have hB1 : check_new_listings initialListing (Finset.range 1001)
      (∅ : Finset ℕ) = ([], [], initialListing) := by
    unfold check_new_listings initialListing
    rw [if_pos rfl, if_neg (by simp)]
  have hB2 : check_new_listings initialListing (Finset.range 1002)
      (∅ : Finset ℕ) = ([], [], initialListing) := by
    unfold check_new_listings initialListing
    rw [if_pos rfl, if_neg (by simp)]
  have hrunA : (runListing initialListing
      [(Finset.range 1001, Finset.range 501),
       (Finset.range 1002, Finset.range 501)]).1 = [1001] := by
    simp only [runListing_cons, hA1, hA2, runListing, List.nil_append]
    simp
  have hrunB : (runListing initialListing
      [(Finset.range 1001, (∅ : Finset ℕ)),
       (Finset.range 1002, (∅ : Finset ℕ))]).1 = [] := by
    simp only [runListing_cons, hB1, hB2, runListing, List.nil_append]
  rw [hrunA, hrunB]
  simp

/-- C4 amended: the two trackers share the single initialization flag
(initialization happens only when the spot floor and the futures floor are
met in the same cycle), so spot behavior is not independent of futures
universes; it depends on them exactly through each cycle's futures floor
outcome: runs with identical spot universes and pointwise-agreeing futures
floor outcomes have identical spot alerts, known spot sets, and
initialization flags — and symmetrically for futures. -/
theorem C4_tracker_dependence :
    (∀ (feedsA feedsB : List (Finset ℕ × Finset ℕ)),
      List.Forall₂ (fun ab cd : Finset ℕ × Finset ℕ =>
        ab.1 = cd.1 ∧ (500 < ab.2.card ↔ 500 < cd.2.card)) feedsA feedsB →
      ∀ (stA stB : ListingState),
      stA.initialized = stB.initialized → stA.knownSpot = stB.knownSpot →
      (runListing stA feedsA).1 = (runListing stB feedsB).1 ∧
      (runListing stA feedsA).2.2.knownSpot
        = (runListing stB feedsB).2.2.knownSpot ∧
      (runListing stA feedsA).2.2.initialized
        = (runListing stB feedsB).2.2.initialized) ∧
    (∀ (feedsA feedsB : List (Finset ℕ × Finset ℕ)),
      List.Forall₂ (fun ab cd : Finset ℕ × Finset ℕ =>
        ab.2 = cd.2 ∧ (1000 < ab.1.card ↔ 1000 < cd.1.card)) feedsA feedsB →
      ∀ (stA stB : ListingState),
      stA.initialized = stB.initialized → stA.knownFutures = stB.knownFutures →
      (runListing stA feedsA).2.1 = (runListing stB feedsB).2.1 ∧
      (runListing stA feedsA).2.2.knownFutures
        = (runListing stB feedsB).2.2.knownFutures ∧
      (runListing stA feedsA).2.2.initialized
        = (runListing stB feedsB).2.2.initialized) :=
  ⟨runListing_spot_dependence, runListing_futures_dependence⟩

/-- C4 amended witness: two single-cycle runs with the same spot universe
{0} and futures universes ∅ vs {1, 2} (both below the futures floor) yield
identical spot alerts, known spot sets, and flags. -/
theorem C4_tracker_dependence_witness :
    (runListing initialListing [({0}, (∅ : Finset ℕ))]).1
      = (runListing initialListing [({0}, ({1, 2} : Finset ℕ))]).1 ∧
    (runListing initialListing [({0}, (∅ : Finset ℕ))]).2.2.knownSpot
      = (runListing initialListing [({0}, ({1, 2} : Finset ℕ))]).2.2.knownSpot ∧
    (runListing initialListing [({0}, (∅ : Finset ℕ))]).2.2.initialized
      = (runListing initialListing
          [({0}, ({1, 2} : Finset ℕ))]).2.2.initialized :=
  C4_tracker_dependence.1 [({0}, ∅)] [({0}, {1, 2})]
    (List.forall₂_cons.2 ⟨⟨rfl, by simp⟩, List.Forall₂.nil⟩)
    initialListing initialListing rfl rfl

/-! ### Pump/dump eligibility filter -/

/-- A ticker failing the suffix / positive-price / positive-volume test is
skipped by the per-ticker alert step: no alert, no state change. -/
lemma alertStep_skips_ineligible (hist : String → List Sample) (now : ℤ)
    (acc : List (String × PumpDumpAlert) × CooldownState) (t : Ticker)
    (h : eligibleTicker t = false) :
    alertStep hist now acc t = acc := by
  unfold alertStep
  unfold eligibleTicker at h
  by_cases hs : hasUSDTSuffix t.symbol = true
  · rw [if_pos hs]
    simp only [hs, Bool.true_and, Bool.and_eq_false_iff,
      decide_eq_false_iff_not, not_lt] at h
    rw [if_pos h]
  · rw [if_neg hs]

/-- Folding the alert step over a ticker list is the same as folding it over
the eligible tickers only. -/
lemma foldl_alertStep_filter (hist : String → List Sample) (now : ℤ) :
    ∀ (l : List Ticker) (acc : List (String × PumpDumpAlert) × CooldownState),
      l.foldl (alertStep hist now) acc
        = (l.filter eligibleTicker).foldl (alertStep hist now) acc := by
  intro l
  induction l with
  | nil => intro acc; rfl
  | cons t rest ih =>
    intro acc
    by_cases he : eligibleTicker t = true
    · rw [List.filter_cons_of_pos he, List.foldl_cons, List.foldl_cons, ih]
    · have hf : eligibleTicker t = false := by simpa using he
      rw [List.filter_cons_of_neg (by simp [hf]), List.foldl_cons,
        alertStep_skips_ineligible _ _ _ _ hf, ih]

/-- C5 counterexample: the claim's volume floor of >100 does not gate
pump/dump classification: a `_USDT` ticker with 24h volume 50 (≤ 100) and a
pumping price is classified and produces an alert — `check_alerts` only
requires volume > 0. -/
theorem C5_volume_floor_counterexample :
    (check_alerts (fun _ => sampleHistory12) 10000
      [⟨"AAA_USDT", 109, 50⟩] initialCooldowns).1
      = [("AAA_USDT", ⟨Signal.PUMP, 9, 109⟩)] := by
  have hdet : detect_pump_dump sampleHistory12 10000 109
      = some ⟨Signal.PUMP, 9, 109⟩ := by
    norm_num [detect_pump_dump, sampleHistory12, baselineLookup, scanBaseline,
      PUMP_THRESHOLD, DUMP_THRESHOLD]
  have hsuf : hasUSDTSuffix "AAA_USDT" = true := by decide
  have hcd : is_alert_on_cooldown initialCooldowns "AAA_USDT" Signal.PUMP 10000
      = false := by decide
  norm_num [check_alerts, alertStep, hsuf, hdet, hcd]

/-- C5 amended: pump/dump eligibility requires the `_USDT` suffix, a positive
price, and a **positive** 24h volume (volume > 0, not > 100): every ticker
failing one of these is skipped without consulting the classifier or touching
the cooldown state, and `check_alerts` equals its restriction to eligible
tickers.  The >100 volume floor applies only to the top-gainers/losers
summary, whose entry is `none` whenever the volume is ≤ 100. -/
theorem C5_eligibility_filter (hist : String → List Sample) (now : ℤ)
    (tickers : List Ticker) (st : CooldownState) :
    (∀ (acc : List (String × PumpDumpAlert) × CooldownState) (t : Ticker),
      eligibleTicker t = false → alertStep hist now acc t = acc) ∧
    check_alerts hist now tickers st
      = check_alerts hist now (tickers.filter eligibleTicker) st ∧
    (∀ t : Ticker, t.volume24 ≤ 100 → summaryChange hist now t = none) := by
  refine ⟨fun acc t => alertStep_skips_ineligible hist now acc t, ?_, ?_⟩
  · unfold check_alerts
    exact foldl_alertStep_filter hist now tickers ([], st)
  · intro t hv
    unfold summaryChange
    have hc : decide (100 < t.volume24) = false :=
      decide_eq_false (not_lt.2 hv)
    rw [if_neg (by simp [hc])]

/-- C5 amended witness: an ineligible ticker (negative volume) is skipped,
a one-ticker ineligible list leaves `check_alerts` equal to its filtered
form, and a volume-50 ticker contributes nothing to the summary. -/
theorem C5_eligibility_filter_witness :
    alertStep (fun _ => []) 10000 ([], initialCooldowns) ⟨"BBB_USDT", 109, -1⟩
      = ([], initialCooldowns) ∧
    check_alerts (fun _ => []) 10000 [⟨"BBB_USDT", 109, -1⟩] initialCooldowns
      = check_alerts (fun _ => []) 10000
          (([⟨"BBB_USDT", 109, -1⟩] : List Ticker).filter eligibleTicker)
          initialCooldowns ∧
    summaryChange (fun _ => []) 10000 ⟨"BBB_USDT", 109, 50⟩ = none :=
  ⟨(C5_eligibility_filter (fun _ => []) 10000 [⟨"BBB_USDT", 109, -1⟩]
      initialCooldowns).1 ([], initialCooldowns) ⟨"BBB_USDT", 109, -1⟩
      (by decide),
   (C5_eligibility_filter (fun _ => []) 10000 [⟨"BBB_USDT", 109, -1⟩]
      initialCooldowns).2.1,
   (C5_eligibility_filter (fun _ => []) 10000 [⟨"BBB_USDT", 109, -1⟩]
      initialCooldowns).2.2 ⟨"BBB_USDT", 109, 50⟩ (by decide)⟩

/-! ### Baseline monotonicity -/

/-- With an empty accumulator the scan is exactly the last qualifying
sample. -/
lemma scanBaseline_none (target : ℤ) (h : List Sample) (hord : TimeOrdered h) :
    scanBaseline target h none
      = (h.filter fun s => decide (s.1 ≤ target)).getLast? := by
  rw [scanBaseline_eq_getLast target h none hord]
  cases (h.filter fun s => decide (s.1 ≤ target)).getLast? <;> rfl

/-- In a time-ordered list, every element's timestamp is at most the last
element's. -/
lemma mem_le_getLast {l : List Sample} {s : Sample}
    (hord : List.Pairwise (fun a b : Sample => a.1 ≤ b.1) l)
    (hl : l.getLast? = some s) : ∀ x ∈ l, x.1 ≤ s.1 := by
  intro x hx
  have hsl : l.dropLast ++ [s] = l :=
    List.dropLast_append_getLast? s (Option.mem_def.2 hl)
  rw [← hsl] at hx hord
  rcases List.mem_append.1 hx with hx | hx
  · exact (List.pairwise_append.1 hord).2.2 x hx s (List.mem_singleton_self s)
  · obtain rfl : x = s := by simpa using hx
    exact le_refl _

/-- C9: the baseline lookup is idempotent (querying twice with the same
`now` and lookback, with no intervening ingestion, gives the identical
result — it is a pure function of the history) and monotonic: on a
time-ordered history, increasing the lookback never selects a baseline
sample with a newer timestamp. -/
theorem C9_idempotent_monotonic (h : List Sample) (now lb lb' : ℤ)
    (hord : TimeOrdered h) (hmono : lb ≤ lb') :
    baselineLookup h now lb = baselineLookup h now lb ∧
    (∀ s s' : Sample, scanBaseline (now - lb) h none = some s →
      scanBaseline (now - lb') h none = some s' → s'.1 ≤ s.1) := by
  refine ⟨rfl, ?_⟩
  intro s s' hs hs'
  rw [scanBaseline_none _ _ hord] at hs hs'
  have hmem' : s' ∈ h.filter fun x => decide (x.1 ≤ now - lb') := by
    obtain ⟨hne, heq⟩ := List.mem_getLast?_eq_getLast (Option.mem_def.2 hs')
    rw [heq]
    exact List.getLast_mem hne
  have hsub : s' ∈ h.filter fun x => decide (x.1 ≤ now - lb) := by
    rw [List.mem_filter] at hmem' ⊢
    refine ⟨hmem'.1, ?_⟩
    have h2 := hmem'.2
    simp only [decide_eq_true_eq] at h2 ⊢
    omega
  have hordf : List.Pairwise (fun a b : Sample => a.1 ≤ b.1)
      (h.filter fun x => decide (x.1 ≤ now - lb)) :=
    List.Pairwise.filter _ hord
  exact mem_le_getLast hordf hs s' hsub

/-- C9 witness: on the two-sample history [(0, 100), (3600, 100)] at
`now = 10000`, the 1-hour query selects the sample at t = 3600 while the
2-hour query selects the (not newer) sample at t = 0. -/
theorem C9_idempotent_monotonic_witness :
    baselineLookup [((0 : ℤ), (100 : ℚ)), (3600, 100)] 10000 3600
      = baselineLookup [((0 : ℤ), (100 : ℚ)), (3600, 100)] 10000 3600 ∧
    (((0 : ℤ), (100 : ℚ)) : Sample).1 ≤ (((3600 : ℤ), (100 : ℚ)) : Sample).1 :=
  ⟨(C9_idempotent_monotonic [(0, 100), (3600, 100)] 10000 3600 7200
      (by unfold TimeOrdered; decide) (by decide)).1,
   (C9_idempotent_monotonic [(0, 100), (3600, 100)] 10000 3600 7200
      (by unfold TimeOrdered; decide) (by decide)).2
     (3600, 100) (0, 100) (by decide) (by decide)⟩

end MexcBot
